import Mathlib

/-!
Verification of the OIDC auth-provider adapter and its Keycloak directory
client.  The Go sources are shallowly embedded: pure string manipulation is
translated to executable Lean functions on `String`/`List Char`; the HTTP
transport, the OIDC client library, the JSON decoder and the access-policy
evaluator are external collaborators and appear as explicit environment
records supplying their outcomes; Go `error` values become an inductive
`GoErr`; a Go runtime panic (nil dereference, out-of-range index) is
modelled as `Option.none` in the affected function.
-/

namespace GoStr

/-- Go `strings.HasPrefix` on rune lists: `isPfx p l` is true iff `p` is a
prefix of `l`. -/
def isPfx : List Char → List Char → Bool
  | [], _ => true
  | _ :: _, [] => false
  | a :: as, b :: bs => (a == b) && isPfx as bs

/-- Leftmost non-overlapping search for the separator `sep` inside `l`:
returns the part strictly before the first occurrence and the remainder
strictly after it, or `none` when `sep` (assumed nonempty) does not occur.
This is the single step underlying Go `strings.SplitN`, `strings.Split`
and `strings.SplitAfter`. -/
def breakOnAux (sep : List Char) : List Char → Option (List Char × List Char)
  | [] => none
  | c :: rest =>
    if isPfx sep (c :: rest) then some ([], (c :: rest).drop sep.length)
    else
      match breakOnAux sep rest with
      | some (pre, post) => some (c :: pre, post)
      | none => none

/-- Go `strings.SplitN(s, sep, 2)`: the parts before and after the first
occurrence of `sep`, or the one-element list `[s]` when `sep` is absent. -/
def goSplitN2 (s sep : String) : List String :=
  match breakOnAux sep.data s.data with
  | some (pre, post) => [⟨pre⟩, ⟨post⟩]
  | none => [s]

/-- Go `strings.TrimPrefix(s, p)`: drops one leading copy of `p` when present. -/
def goTrimPfx (s p : String) : String :=
  if isPfx p.data s.data then ⟨s.data.drop p.data.length⟩ else s

/-- Repeated leftmost splitting, with fuel for termination.  One unit of
fuel per produced part; `l.length + 1` units always suffice for a nonempty
separator, and when the separator is absent the result is `[l]` for any
fuel, so the fuel never shows in the semantics. -/
def splitOnFuel (sep : List Char) : Nat → List Char → List (List Char)
  | 0, l => [l]
  | fuel+1, l =>
    match breakOnAux sep l with
    | some (pre, post) => pre :: splitOnFuel sep fuel post
    | none => [l]

/-- Go `strings.Split(s, sep)` for a nonempty separator. -/
def goSplit (s sep : String) : List String :=
  (splitOnFuel sep.data (s.data.length + 1) s.data).map (⟨·⟩)

/-- Re-attach the separator to every part except the last one. -/
def withSep (sep : List Char) : List (List Char) → List (List Char)
  | [] => []
  | [x] => [x]
  | x :: xs => (x ++ sep) :: withSep sep xs

/-- Go `strings.SplitAfter(s, sep)` for a nonempty separator: like
`strings.Split` but every part except the last keeps the trailing `sep`. -/
def goSplitAfter (s sep : String) : List String :=
  (withSep sep.data (splitOnFuel sep.data (s.data.length + 1) s.data)).map (⟨·⟩)

end GoStr

open GoStr

/-- Go `error` values as this adapter distinguishes them.  Values produced
by external collaborators (the OIDC library, the HTTP transport, the JSON
decoder, the config store, the policy evaluator) enter as `ext`;
`fmt.Errorf("... got status code: %d. url: %s, err: %s", ...)` wrappers
around a failed directory GET become `getFailed`; `httperror.NewAPIError`
becomes `apiError` with the norman status code and code tag. -/
inductive GoErr where
  | apiError (status : Nat) (code : String) (message : String)
  | getFailed (status : Nat) (url : String) (cause : GoErr)
  | ext (msg : String)
deriving DecidableEq, Repr

/-- `v3.Principal`, restricted to the fields this adapter reads or writes.
`name` is `ObjectMeta.Name`, the encoded principal id. -/
structure Principal where
  name : String := ""
  displayName : String := ""
  loginName : String := ""
  principalType : String := ""
  provider : String := ""
  me : Bool := false
  memberOf : Bool := false
deriving DecidableEq, Repr

/-- `v3.Token`, restricted to the field this adapter reads. -/
structure Token where
  userPrincipal : Principal := {}
deriving DecidableEq, Repr

/-- `v32.OIDCConfig`, restricted to the fields this adapter reads. -/
structure OIDCConfig where
  issuer : String := ""
  clientID : String := ""
  clientSecret : String := ""
  rancherURL : String := ""
  scopes : String := ""
  accessMode : String := ""
  allowedPrincipalIDs : List String := []
  certificate : String := ""
  privateKey : String := ""
deriving DecidableEq, Repr

namespace oidc

/-- Package constant `Name = "oidc"`. -/
def Name : String := "oidc"

/-- Package constant `UserType = "user"`. -/
def UserType : String := "user"

/-- Package constant `GroupType = "group"`. -/
def GroupType : String := "group"

/-- The decoded `claimInfo` structure. -/
structure claimInfo where
  subject : String := ""
  name : String := ""
  preferredUsername : String := ""
  givenName : String := ""
  familyName : String := ""
  email : String := ""
  emailVerified : Bool := false
  groups : List String := []
deriving DecidableEq, Repr

/-- `oidc.UserInfo` from the go-oidc library, restricted to the fields
`LoginUser` reads (`Subject` and `Email`). -/
structure UserInfo where
  subject : String := ""
  email : String := ""
deriving DecidableEq, Repr

/-- An `oauth2.Token` as `LoginUser` consumes it.  `extraIdToken` is the
result of the type assertion `token.Extra("id_token").(string)` (`none`
when the extra is absent or not a string), likewise `extraAccessToken`
for `token.Extra("access_token").(string)`. -/
structure OAuth2Token where
  accessToken : String := ""
  extraIdToken : Option String := none
  extraAccessToken : Option String := none
deriving DecidableEq, Repr

/-- Outcomes of the external collaborators `LoginUser` drives, in call
order: the config store, `AddCertKeyToContext`, `oidc.NewProvider`, the
authorization-code exchange (a function of the scope list the adapter
passes), `verifier.Verify` (a function of the client id the verifier is
bound to and the raw token), `provider.UserInfo`, `userInfo.Claims`
decoding, and `UserMGR.CheckAccess` (mode, allow-list, user id, groups). -/
structure LoginEnv where
  getConfig : Except GoErr OIDCConfig
  addCertKey : Option GoErr
  newProvider : Except GoErr Unit
  exchange : List String → Except GoErr OAuth2Token
  verify : String → String → Except GoErr Unit
  userInfo : OAuth2Token → Except GoErr UserInfo
  claims : UserInfo → Except GoErr claimInfo
  checkAccess : String → List String → String → List Principal → Except GoErr Bool

/-- The four return values of `LoginUser`. -/
structure LoginResult where
  userPrincipal : Principal
  groupPrincipals : List Principal
  accessToken : String
  err : Option GoErr
deriving DecidableEq, Repr

/-- `OpenIDCProvider.userToPrincipal`. -/
def userToPrincipal (userInfo : UserInfo) (info : claimInfo) : Principal :=
  let displayName := if info.name = "" then userInfo.email else info.name
  { name := Name ++ "_" ++ UserType ++ "://" ++ userInfo.subject
    displayName := displayName
    loginName := userInfo.email
    provider := Name
    principalType := UserType
    me := false }

/-- `OpenIDCProvider.groupToPrincipal`. -/
def groupToPrincipal (groupName : String) : Principal :=
  { name := Name ++ "_" ++ GroupType ++ "://" ++ groupName
    displayName := groupName
    provider := Name
    principalType := GroupType
    me := false }

/-- `OpenIDCProvider.IsThisUserMe`. -/
def IsThisUserMe (me other : Principal) : Bool :=
  me.name == other.name && me.loginName == other.loginName
    && me.principalType == other.principalType

/-- `OpenIDCProvider.toPrincipalFromToken`.  `memberOfCheck` stands for the
external `TokenMGR.IsMemberOf`; the `Option Token` mirrors the `*v3.Token`
parameter and its nil checks. -/
def toPrincipalFromToken (memberOfCheck : Token → Principal → Bool)
    (principalType : String) (princ : Principal) (token : Option Token) : Principal :=
  if principalType = UserType then
    let princ1 := { princ with principalType := UserType }
    match token with
    | none => princ1
    | some t =>
      let princ2 := { princ1 with me := IsThisUserMe t.userPrincipal princ1 }
      if princ2.me then
        { princ2 with loginName := t.userPrincipal.loginName
                      displayName := t.userPrincipal.displayName }
      else princ2
  else
    let princ1 := { princ with principalType := GroupType }
    match token with
    | none => princ1
    | some t => { princ1 with memberOf := memberOfCheck t princ1 }

/-- The id-parsing prefix of `OpenIDCProvider.GetPrincipal` (its first four
checks), split out as the resolver the spec calls `parsePrincipalID`:
split on the first `:`, trim a leading `//` off the remainder, split the
head on the first `_`, then validate.  Returns the principal type and the
external id on success. -/
def parsePrincipalID (principalID : String) : Except GoErr (String × String) :=
  match goSplitN2 principalID ":" with
  | [p0, p1] =>
    let externalID := goTrimPfx p1 "//"
    match goSplitN2 p0 "_" with
    | [_, principalType] =>
      if externalID = "" ∧ principalType = "" then
        Except.error (.ext ("[generic oidc]: invalid id " ++ principalID))
      else if principalType ≠ UserType ∧ principalType ≠ GroupType then
        Except.error (.ext "[generic oidc]: invalid principal type")
      else Except.ok (principalType, externalID)
    | _ => Except.error (.ext ("invalid id " ++ principalID))
  | _ => Except.error (.ext ("invalid id " ++ principalID))

/-- `OpenIDCProvider.GetPrincipal`.  After parsing, the code compares the
entire `principalID` (not the parsed type) against `UserType`, so the
user-shaped reconstruction branch is taken only when the whole id equals
`"user"`; every other id is rebuilt through `groupToPrincipal`. -/
def GetPrincipal (memberOfCheck : Token → Principal → Bool)
    (principalID : String) (token : Token) : Except GoErr Principal :=
  match parsePrincipalID principalID with
  | .error e => Except.error e
  | .ok (principalType, externalID) =>
    let p :=
      if principalID = UserType then
        { name := principalType ++ "://" ++ externalID
          displayName := externalID
          loginName := externalID
          principalType := UserType
          provider := Name : Principal }
      else groupToPrincipal externalID
    Except.ok (toPrincipalFromToken memberOfCheck principalType p (some token))

/-- The scope list `LoginUser` builds: `{oidc.ScopeOpenID} ++
strings.Split(config.Scopes, ",")`. -/
def allScopes (config : OIDCConfig) : List String :=
  "openid" :: goSplit config.scopes ","

/-- Raw-token selection in `LoginUser`: the `id_token` extra when it is a
string, else the `access_token` extra. -/
def extractRawToken (tok : OAuth2Token) : Option String :=
  match tok.extraIdToken with
  | some t => some t
  | none => tok.extraAccessToken

/-- The group principals `LoginUser` builds from `claimInfo.Groups`. -/
def loginGroupPrincipals (info : claimInfo) : List Principal :=
  info.groups.map fun g => { groupToPrincipal g with memberOf := true }

/-- The error `LoginUser` returns on access denial:
`httperror.NewAPIError(httperror.Unauthorized, "unauthorized")`. -/
def accessDeniedError : GoErr := .apiError 401 "Unauthorized" "unauthorized"

/-- The zero `v3.Principal` the early returns of `LoginUser` hand back. -/
def emptyPrincipal : Principal := {}

/-- `OpenIDCProvider.LoginUser`.  Each external call is answered by `env`;
the control flow, in particular which error value each early return hands
back, mirrors the source line by line.  When neither token extra is a
string the source returns the current `err` variable, which is `nil` at
that point, hence the `none` error in that branch. -/
def LoginUser (env : LoginEnv) (configArg : Option OIDCConfig) : LoginResult :=
  match (match configArg with
         | none => env.getConfig
         | some c => Except.ok c) with
  | .error e => ⟨emptyPrincipal, [], "", some e⟩
  | .ok config =>
    match env.addCertKey with
    | some e => ⟨emptyPrincipal, [], "", some e⟩
    | none =>
      match env.newProvider with
      | .error e => ⟨emptyPrincipal, [], "", some e⟩
      | .ok _ =>
        match env.exchange (allScopes config) with
        | .error e => ⟨emptyPrincipal, [], "", some e⟩
        | .ok oauth2Token =>
          match extractRawToken oauth2Token with
          | none => ⟨emptyPrincipal, [], "", none⟩
          | some rawToken =>
            match env.verify config.clientID rawToken with
            | .error e => ⟨emptyPrincipal, [], "", some e⟩
            | .ok _ =>
              match env.userInfo oauth2Token with
              | .error e => ⟨emptyPrincipal, [], "", some e⟩
              | .ok userInfo =>
                match env.claims userInfo with
                | .error e => ⟨emptyPrincipal, [], "", some e⟩
                | .ok info =>
                  let userPrincipal := { userToPrincipal userInfo info with me := true }
                  let groupPrincipals := loginGroupPrincipals info
                  match env.checkAccess config.accessMode config.allowedPrincipalIDs
                      userPrincipal.name groupPrincipals with
                  | .error e => ⟨userPrincipal, groupPrincipals, "", some e⟩
                  | .ok allowed =>
                    if allowed then ⟨userPrincipal, groupPrincipals, oauth2Token.accessToken, none⟩
                    else ⟨userPrincipal, groupPrincipals, "", some accessDeniedError⟩

end oidc

namespace keycloakoidc

/-- Modelled from the spec: the package constants `UserType` and
`GroupType` referenced by `keycloak_client.go` are declared in a package
file that is not among the provided sources; the spec fixes the search
kinds to User and Group and the admin endpoints to `/users?search=` and
`/groups?search=` (the code appends an `s` to the constant), so the
constants are `"user"` and `"group"`. -/
def UserType : String := "user"

/-- Modelled from the spec: see `keycloakoidc.UserType`. -/
def GroupType : String := "group"

/-- The `account` record of the Keycloak admin API (`Name` carries the
JSON `firstName` field; `Type` is the kind tag assigned by the caller). -/
structure account where
  id : Int := 0
  email : String := ""
  emailVerified : String := ""
  username : String := ""
  enabled : Bool := false
  name : String := ""
  lastName : String := ""
  type : String := ""
deriving DecidableEq, Repr

mutual
/-- The `Group` record of the Keycloak admin API: id, name and the nested
`subGroups` list.  The nested slice `[]Group` is encoded as the mutual
inductive `GroupList` so that all functions over it are structural. -/
inductive Group where
  | mk (id : Int) (name : String) (subGroups : GroupList)
/-- A `[]Group` slice. -/
inductive GroupList where
  | nil
  | cons (head : Group) (tail : GroupList)
end

def Group.id : Group → Int
  | .mk i _ _ => i

def Group.name : Group → String
  | .mk _ n _ => n

def Group.subGroups : Group → GroupList
  | .mk _ _ s => s

def GroupList.length : GroupList → Nat
  | .nil => 0
  | .cons _ rest => 1 + rest.length

def GroupList.append : GroupList → GroupList → GroupList
  | .nil, ys => ys
  | .cons x xs, ys => .cons x (xs.append ys)

def GroupList.toList : GroupList → List Group
  | .nil => []
  | .cons g rest => g :: rest.toList

/-- The first `n` entries of a `[]Group` slice. -/
def takeGL : Nat → GroupList → GroupList
  | _, .nil => .nil
  | 0, .cons _ _ => .nil
  | n+1, .cons g rest => .cons g (takeGL n rest)

mutual
/-- `getSubGroups`: depth-first flattening of a group's nested subgroups.
The loop over the immediate subgroup list runs its body only while the
index is below 100; each visited subgroup is emitted followed by its own
recursively flattened subgroups. -/
def getSubGroups : Group → GroupList
  | .mk _ _ subs => if 0 < subs.length then loopSubs 0 subs else .nil
/-- The `for i, sub := range group.Subgroups` loop of `getSubGroups`,
carrying the running index `i`. -/
def loopSubs : Nat → GroupList → GroupList
  | _, .nil => .nil
  | i, .cons sub rest =>
    (if i < 100 then GroupList.cons sub (getSubGroups sub) else .nil).append
      (loopSubs (i+1) rest)
end

mutual
/-- Modelled from the spec, for comparison with `getSubGroups`: the full
transitive closure of a group's subgroups in depth-first order, with no
per-level cap ("flattening returns exactly the full transitive closure,
each subgroup's own id preserved"). -/
def allSubGroups : Group → GroupList
  | .mk _ _ subs => allLoop subs
/-- Uncapped depth-first walk of a `[]Group` slice. -/
def allLoop : GroupList → GroupList
  | .nil => .nil
  | .cons sub rest => (GroupList.cons sub (allSubGroups sub)).append (allLoop rest)
end

mutual
/-- Every nesting level of the group record has at most 100 entries. -/
def levelsBounded : Group → Bool
  | .mk _ _ subs => decide (subs.length ≤ 100) && boundedAll subs
/-- `levelsBounded` holds of every group in the slice. -/
def boundedAll : GroupList → Bool
  | .nil => true
  | .cons g rest => levelsBounded g && boundedAll rest
end

/-- `getSearchURL`: `strings.SplitAfter(issuer, "/auth/")`, then
`fmt.Sprintf("%sadmin/%s", splitIssuer[0], splitIssuer[1])`.  The returned
Go error is always nil; when the issuer does not contain `/auth/` the
split has a single part and the index expression `splitIssuer[1]` is out
of range, a runtime panic, modelled as `none`. -/
def getSearchURL (issuer : String) : Option String :=
  let splitIssuer := goSplitAfter issuer "/auth/"
  match splitIssuer[0]?, splitIssuer[1]? with
  | some s0, some s1 => some (s0 ++ "admin/" ++ s1)
  | _, _ => none

/-- `URLEncoded`: `url.Parse` followed by `String` is the identity on the
well-formed URLs this client builds, and on a parse error the code
returns the input unchanged, so the function is modelled as the
identity. -/
def URLEncoded (str : String) : String := str

/-- One outcome of the HTTP layer under `getFromKeyCloak`: `newClient`
failing, `http.NewRequest` failing, `httpClient.Do` failing (in which
case the code dereferences the nil response for its status code, a
runtime panic), or a response with a status, the bytes `ioutil.ReadAll`
produced, and the read error if any. -/
inductive TransportResult where
  | clientErr (e : GoErr)
  | requestErr (e : GoErr)
  | doErr (e : GoErr)
  | response (statusCode : Nat) (body : String) (readErr : Option GoErr)

/-- The external collaborators of the Keycloak client: the HTTP layer
(keyed by access token and URL) and the `encoding/json` decoder for each
target shape. -/
structure KCEnv where
  transport : String → String → TransportResult
  unmarshalAccounts : String → Except GoErr (List account)
  unmarshalGroups : String → Except GoErr GroupList
  unmarshalAccount : String → Except GoErr account

/-- `KClient.getFromKeyCloak`: returns the body bytes, the status code and
the error.  For status 200 and 201 the error is nil; for every other
status the returned error is the `ReadAll` error, which is nil whenever
the body was read successfully.  `none` models the nil-response panic on
a transport error. -/
def getFromKeyCloak (env : KCEnv) (accessToken url : String) :
    Option (Option String × Nat × Option GoErr) :=
  match env.transport accessToken url with
  | .clientErr e => some (none, 500, some e)
  | .requestErr e => some (none, 500, some e)
  | .doErr _ => none
  | .response statusCode body readErr =>
    if statusCode = 200 then some (some body, statusCode, none)
    else if statusCode = 201 then some (some body, statusCode, none)
    else some (some body, statusCode, readErr)

/-- Control flow of one branch of `searchPrincipals`: an early `return`
with a result pair, a runtime panic, or falling through with the updated
accumulator. -/
inductive LegOutcome where
  | ret (accounts : List account) (err : Option GoErr)
  | panicked
  | cont (accounts : List account)

/-- The `/users?search=` branch of `searchPrincipals`: a 401 returns
`(nil, nil)` before the error is examined; a non-nil error from
`getFromKeyCloak` is wrapped with the status code and URL; a decode error
is returned as is; otherwise every decoded account is tagged
`Type = UserType` and appended. -/
def usersLeg (env : KCEnv) (sURL searchTerm accessToken : String)
    (accounts : List account) : LegOutcome :=
  let search := URLEncoded (sURL ++ "/" ++ UserType ++ "s?search=" ++ searchTerm)
  match getFromKeyCloak env accessToken search with
  | none => .panicked
  | some (b, statusCode, err) =>
    if statusCode = 401 then .ret [] none
    else
      match err with
      | some e => .ret accounts (some (.getFailed statusCode search e))
      | none =>
        match env.unmarshalAccounts (b.getD "") with
        | .error e => .ret accounts (some e)
        | .ok userAccounts =>
          .cont (accounts ++ userAccounts.map fun u => { u with type := UserType })

/-- The `/groups?search=` branch of `searchPrincipals`: a 401 returns
`(nil, nil)`; a non-nil error from `getFromKeyCloak` is returned raw;
otherwise each decoded group is appended as a Group-tagged account
followed by its flattened subgroups. -/
def groupsLeg (env : KCEnv) (sURL searchTerm accessToken : String)
    (accounts : List account) : LegOutcome :=
  let search := URLEncoded (sURL ++ "/" ++ GroupType ++ "s?search=" ++ searchTerm)
  match getFromKeyCloak env accessToken search with
  | none => .panicked
  | some (b, statusCode, err) =>
    if statusCode = 401 then .ret [] none
    else
      match err with
      | some e => .ret accounts (some e)
      | none =>
        match env.unmarshalGroups (b.getD "") with
        | .error e => .ret accounts (some e)
        | .ok groups =>
          .cont (accounts ++ groups.toList.flatMap fun g =>
            ({ id := g.id, name := g.name, type := GroupType } : account) ::
              (getSubGroups g).toList.map fun sg =>
                ({ id := sg.id, name := sg.name, type := GroupType } : account))

/-- `KClient.searchPrincipals`.  The error value of `getSearchURL` is
always nil, so its error branch is dead; the panic inside `getSearchURL`
propagates as `none`.  Each leg runs only for the matching principal
types, in source order. -/
def searchPrincipals (env : KCEnv) (searchTerm principalType accessToken : String)
    (config : OIDCConfig) : Option (List account × Option GoErr) :=
  match getSearchURL config.issuer with
  | none => none
  | some sURL =>
    match (if principalType = "" ∨ principalType = UserType
           then usersLeg env sURL searchTerm accessToken []
           else .cont []) with
    | .panicked => none
    | .ret result err => some (result, err)
    | .cont accounts =>
      match (if principalType = "" ∨ principalType = GroupType
             then groupsLeg env sURL searchTerm accessToken accounts
             else .cont accounts) with
      | .panicked => none
      | .ret result err => some (result, err)
      | .cont accounts => some (accounts, none)

/-- `KClient.getFromKeyCloakByID`: the singular-path fetch.  There is no
401 special case here; a non-nil error from `getFromKeyCloak` is wrapped
with the status code, and a decode error is returned with the zero
account. -/
def getFromKeyCloakByID (env : KCEnv) (principalID accessToken searchType : String)
    (config : OIDCConfig) : Option (account × Option GoErr) :=
  match getSearchURL config.issuer with
  | none => none
  | some sURL =>
    let search := URLEncoded (sURL ++ "/" ++ searchType ++ "/" ++ principalID)
    match getFromKeyCloak env accessToken search with
    | none => none
    | some (b, statusCode, err) =>
      match err with
      | some e => some ({}, some (.getFailed statusCode search e))
      | none =>
        match env.unmarshalAccount (b.getD "") with
        | .error e => some ({}, some e)
        | .ok searchResult => some (searchResult, none)

end keycloakoidc

section Fixtures

open oidc keycloakoidc

/-- A fully-populated provider configuration used by the concrete login
scenarios. -/
def cfgEx : OIDCConfig :=
  { issuer := "https://host/auth/realms/foo"
    clientID := "cid"
    clientSecret := "sec"
    rancherURL := "https://rancher.example"
    scopes := "profile,email"
    accessMode := "required"
    allowedPrincipalIDs := ["oidc_user://userA"]
    certificate := ""
    privateKey := "" }

/-- A token-exchange response carrying both extras. -/
def tokEx : OAuth2Token :=
  { accessToken := "the-access-token"
    extraIdToken := some "the-id-token"
    extraAccessToken := some "the-access-token" }

/-- A token-exchange response with neither an `id_token` nor an
`access_token` extra. -/
def tokNoExtras : OAuth2Token :=
  { accessToken := "the-access-token"
    extraIdToken := none
    extraAccessToken := none }

def uiEx : oidc.UserInfo := { subject := "userB", email := "b@example.com" }

def ciEx : claimInfo :=
  { subject := "userB", name := "User B", email := "b@example.com"
    groups := ["devs"] }

/-- A login environment in which every upstream step succeeds and the
access check denies the resolved user. -/
def envDeny : LoginEnv :=
  { getConfig := Except.ok cfgEx
    addCertKey := none
    newProvider := Except.ok ()
    exchange := fun _ => Except.ok tokEx
    verify := fun _ _ => Except.ok ()
    userInfo := fun _ => Except.ok uiEx
    claims := fun _ => Except.ok ciEx
    checkAccess := fun _ _ _ _ => Except.ok false }

/-- A login environment in which the exchange succeeds but the response
carries neither token extra. -/
def envNoToken : LoginEnv :=
  { getConfig := Except.ok cfgEx
    addCertKey := none
    newProvider := Except.ok ()
    exchange := fun _ => Except.ok tokNoExtras
    verify := fun _ _ => Except.ok ()
    userInfo := fun _ => Except.ok uiEx
    claims := fun _ => Except.ok ciEx
    checkAccess := fun _ _ _ _ => Except.ok true }

/-- A directory backend that answers every request with HTTP 500 and the
body `[]`, read successfully, and a JSON decoder that decodes `[]` as the
empty list (and fails on anything else, including decoding `[]` into a
single `account`). -/
def env500 : KCEnv :=
  { transport := fun _ _ => .response 500 "[]" none
    unmarshalAccounts := fun b =>
      if b = "[]" then Except.ok [] else Except.error (.ext "users decode")
    unmarshalGroups := fun b =>
      if b = "[]" then Except.ok .nil else Except.error (.ext "groups decode")
    unmarshalAccount := fun _ => Except.error (.ext "account decode") }

/-- A directory backend that answers every request with HTTP 401. -/
def env401 : KCEnv :=
  { transport := fun _ _ => .response 401 "unauthorized" none
    unmarshalAccounts := fun _ => Except.error (.ext "users decode")
    unmarshalGroups := fun _ => Except.error (.ext "groups decode")
    unmarshalAccount := fun _ => Except.error (.ext "account decode") }

/-- A two-level concrete group record: group 1 has subgroup 2, which has
subgroup 3. -/
def gEx : Group :=
  .mk 1 "top" (.cons (.mk 2 "mid" (.cons (.mk 3 "leaf" .nil) .nil)) .nil)

end Fixtures

open oidc keycloakoidc

/-! ### Helper lemmas -/

/-- A two-way split returns either the whole string or exactly two parts. -/
theorem goSplitN2_shape (s sep : String) :
    goSplitN2 s sep = [s] ∨ ∃ a b : String, goSplitN2 s sep = [a, b] := by
  unfold goSplitN2
  cases breakOnAux sep.data s.data with
  | none => exact Or.inl rfl
  | some pp => exact Or.inr ⟨⟨pp.1⟩, ⟨pp.2⟩, rfl⟩

/-- Parsing inverts the id built for a user with external id `s`. -/
theorem parse_user_id (s : String) :
    parsePrincipalID ("oidc_user://" ++ s) = .ok (oidc.UserType, s) := by
  have h1 : goSplitN2 ("oidc_user://" ++ s) ":" = ["oidc_user", ⟨'/' :: '/' :: s.data⟩] := rfl
  have h2 : goTrimPfx ⟨'/' :: '/' :: s.data⟩ "//" = s := rfl
  have h3 : goSplitN2 "oidc_user" "_" = ["oidc", "user"] := rfl
  simp only [parsePrincipalID, h1, h2, h3, oidc.UserType, oidc.GroupType]
  simp

/-- Parsing inverts the id built for a group with name `s`. -/
theorem parse_group_id (s : String) :
    parsePrincipalID ("oidc_group://" ++ s) = .ok (oidc.GroupType, s) := by
  have h1 : goSplitN2 ("oidc_group://" ++ s) ":" = ["oidc_group", ⟨'/' :: '/' :: s.data⟩] := rfl
  have h2 : goTrimPfx ⟨'/' :: '/' :: s.data⟩ "//" = s := rfl
  have h3 : goSplitN2 "oidc_group" "_" = ["oidc", "group"] := rfl
  simp only [parsePrincipalID, h1, h2, h3, oidc.UserType, oidc.GroupType]
  simp

/-- A well-formed user principal id is never the bare string `"user"`, so
the comparison `principalID == UserType` in `GetPrincipal` is false. -/
theorem user_id_ne_usertype (x : String) : ("oidc_user://" ++ x) ≠ oidc.UserType := by
  intro h
  have hlen := congrArg String.length h
  rw [String.length_append] at hlen
  have h1 : ("oidc_user://" : String).length = 12 := rfl
  have h2 : (oidc.UserType : String).length = 4 := rfl
  omega

/-- Once the loop index reaches 100 the subgroup loop contributes
nothing. -/
theorem loopSubs_ge : ∀ (i : Nat), 100 ≤ i → ∀ gl, loopSubs i gl = .nil
  | _, _, .nil => by simp [loopSubs]
  | i, h, .cons g rest => by
    have ih := loopSubs_ge (i+1) (by omega) rest
    have hni : ¬ i < 100 := by omega
    simp [loopSubs, hni, ih, GroupList.append]

mutual
/-- Under the 100-entries-per-level bound, the capped flattening agrees
with the full transitive closure. -/
theorem getSubGroups_bounded : ∀ g : Group, levelsBounded g = true →
    getSubGroups g = allSubGroups g
  | .mk i n subs, h => by
    have hparts : subs.length ≤ 100 ∧ boundedAll subs = true := by
      simpa [levelsBounded, Bool.and_eq_true] using h
    have hloop := loopSubs_bounded 0 subs hparts.2 (by omega)
    cases subs with
    | nil => simp [getSubGroups, allSubGroups, allLoop, GroupList.length]
    | cons g0 rest =>
      have hpos : 0 < (GroupList.cons g0 rest).length := by
        simp [GroupList.length]
      simp [getSubGroups, allSubGroups, hpos, hloop]

/-- The indexed loop agrees with the uncapped walk while the index stays
below the cap for the whole list. -/
theorem loopSubs_bounded : ∀ (i : Nat) (gl : GroupList), boundedAll gl = true →
    i + gl.length ≤ 100 → loopSubs i gl = allLoop gl
  | _, .nil, _, _ => by simp [loopSubs, allLoop]
  | i, .cons g rest, hb, hlen => by
    have hparts : levelsBounded g = true ∧ boundedAll rest = true := by
      simpa [boundedAll, Bool.and_eq_true] using hb
    have hlt : i < 100 := by
      simp [GroupList.length] at hlen; omega
    have ih1 := getSubGroups_bounded g hparts.1
    have ih2 := loopSubs_bounded (i+1) rest hparts.2
      (by simp [GroupList.length] at hlen ⊢; omega)
    simp [loopSubs, allLoop, hlt, ih1, ih2]
end

theorem takeGL_nil (n : Nat) : takeGL n .nil = .nil := by
  cases n <;> simp [takeGL]

/-- The subgroup loop never looks past the first `100 - i` entries. -/
theorem loopSubs_take : ∀ (i : Nat) (gl : GroupList),
    loopSubs i gl = loopSubs i (takeGL (100 - i) gl)
  | i, .nil => by rw [takeGL_nil]
  | i, .cons g rest => by
    by_cases hi : i < 100
    · have h100 : 100 - i = (100 - (i+1)) + 1 := by omega
      have ih := loopSubs_take (i+1) rest
      rw [h100]
      simp only [takeGL, loopSubs]
      rw [← ih]
    · have h0 : 100 - i = 0 := by omega
      have hge := loopSubs_ge i (by omega)
      rw [h0]
      simp only [takeGL]
      rw [hge, hge]

/-- Flattening ignores every immediate subgroup past the first 100. -/
theorem getSubGroups_take (i : Int) (n : String) (subs : GroupList) :
    getSubGroups (.mk i n subs) = getSubGroups (.mk i n (takeGL 100 subs)) := by
  cases subs with
  | nil => rw [takeGL_nil]
  | cons g rest =>
    have hpos : 0 < (GroupList.cons g rest).length := by
      simp [GroupList.length]
    have hpos2 : 0 < (takeGL 100 (GroupList.cons g rest)).length := by
      simp [takeGL, GroupList.length]
    simp only [getSubGroups, if_pos hpos, if_pos hpos2]
    have := loopSubs_take 0 (GroupList.cons g rest)
    simpa using this

/-- `isPfx` decides the list-prefix relation. -/
theorem isPfx_iff (p : List Char) : ∀ l, isPfx p l = true ↔ p <+: l := by
  induction p with
  | nil => intro l; simp [isPfx]
  | cons a as ih =>
    intro l
    cases l with
    | nil => simp [isPfx]
    | cons b bs =>
      simp [isPfx, Bool.and_eq_true, beq_iff_eq, ih, List.cons_prefix_cons]

/-- The separator search fails exactly when the separator is not an infix
of the scanned list. -/
theorem breakOnAux_none_iff (sep : List Char) (hs : sep ≠ []) :
    ∀ l, breakOnAux sep l = none ↔ ¬ sep <:+: l
  | [] => by
    simp only [breakOnAux]
    constructor
    · intro _ hinf
      exact hs (List.infix_nil.mp hinf)
    · intro _
      trivial
  | c :: rest => by
    have ih := breakOnAux_none_iff sep hs rest
    rw [List.infix_cons_iff]
    by_cases hp : isPfx sep (c :: rest) = true
    · have hpre : sep <+: c :: rest := (isPfx_iff sep (c :: rest)).mp hp
      simp [breakOnAux, hp, hpre]
    · have hnpre : ¬ sep <+: c :: rest := fun hx => hp ((isPfx_iff sep (c :: rest)).mpr hx)
      cases hb : breakOnAux sep rest with
      | none =>
        have hni : ¬ sep <:+: rest := ih.mp hb
        simp [breakOnAux, hp, hb, hnpre, hni]
      | some pp =>
        have hinf : sep <:+: rest := by
          by_contra hni
          rw [ih.mpr hni] at hb
          exact Option.noConfusion hb
        simp [breakOnAux, hp, hb, hinf]

/-- On every issuer that does not contain the `/auth/` marker,
`getSearchURL` reaches the out-of-range index, i.e. panics. -/
theorem getSearchURL_no_marker (issuer : String)
    (h : ¬ ("/auth/".data <:+: issuer.data)) : getSearchURL issuer = none := by
  have hb : breakOnAux "/auth/".data issuer.data = none :=
    (breakOnAux_none_iff "/auth/".data (by decide) issuer.data).mpr h
  simp [getSearchURL, goSplitAfter, splitOnFuel, hb, withSep]

/-! ### Claim theorems -/

/-- Claim C1: in the login flow, when `CheckAccess` (with the configured
access mode and allowed principal ids) denies the resolved user, login
returns the unauthorized API error — a value distinct from every wrapped
or upstream error — and the returned access-token string is empty. -/
theorem claim_C1_login_access_denied
    (env : LoginEnv) (config : OIDCConfig) (tok : OAuth2Token) (rt : String)
    (ui : oidc.UserInfo) (ci : claimInfo)
    (hck : env.addCertKey = none)
    (hpr : env.newProvider = Except.ok ())
    (hex : env.exchange (allScopes config) = Except.ok tok)
    (hrt : extractRawToken tok = some rt)
    (hvf : env.verify config.clientID rt = Except.ok ())
    (hui : env.userInfo tok = Except.ok ui)
    (hcl : env.claims ui = Except.ok ci)
    (hden : env.checkAccess config.accessMode config.allowedPrincipalIDs
        (userToPrincipal ui ci).name (loginGroupPrincipals ci) = Except.ok false) :
    (LoginUser env (some config)).accessToken = ""
      ∧ (LoginUser env (some config)).err = some accessDeniedError
      ∧ (∀ m, accessDeniedError ≠ GoErr.ext m)
      ∧ (∀ st u c, accessDeniedError ≠ GoErr.getFailed st u c) := by
  refine ⟨?_, ?_, ?_, ?_⟩
  · simp [LoginUser, hck, hpr, hex, hrt, hvf, hui, hcl, hden]
  · simp [LoginUser, hck, hpr, hex, hrt, hvf, hui, hcl, hden]
  · intro m
    simp [accessDeniedError]
  · intro st u c
    simp [accessDeniedError]

/-- Witness for C1: the concrete denying environment `envDeny` yields an
empty access token and the unauthorized API error. -/
theorem claim_C1_login_access_denied_witness :
    (LoginUser envDeny (some cfgEx)).accessToken = ""
      ∧ (LoginUser envDeny (some cfgEx)).err = some accessDeniedError := by
  have h := claim_C1_login_access_denied envDeny cfgEx tokEx "the-id-token" uiEx ciEx
    rfl rfl rfl rfl rfl rfl rfl rfl
  exact ⟨h.1, h.2.1⟩

/-- Claim C2 (refuted, code bug): a backend answering HTTP 500 with the
readable body `[]` does NOT produce an error carrying the status and
body — `getFromKeyCloak` returns the nil `ReadAll` error for non-2xx
statuses, so the search succeeds with an empty list and nil error, and
the by-id fetch surfaces only a bare decode error without the status. -/
theorem claim_C2_non2xx_not_surfaced :
    searchPrincipals env500 "bob" "" "tok" cfgEx = some ([], none)
      ∧ getFromKeyCloakByID env500 "42" "tok" "users" cfgEx
          = some ({}, some (GoErr.ext "account decode")) :=
  ⟨rfl, rfl⟩

/-- Claim C3: a 401 response from the directory backend on the
`/users?search=` call (for kind empty or user), or on the
`/groups?search=` call (for kind group, or kind empty after a successful
users call), makes `searchPrincipals` return the empty list and a nil
error. -/
theorem claim_C3_search_401_empty
    (env : KCEnv) (term accessToken : String) (cfg : OIDCConfig) (sURL : String)
    (hurl : getSearchURL cfg.issuer = some sURL) :
    (∀ pt, (pt = "" ∨ pt = keycloakoidc.UserType) →
      ∀ b re, env.transport accessToken
          (URLEncoded (sURL ++ "/" ++ keycloakoidc.UserType ++ "s?search=" ++ term))
            = .response 401 b re →
        searchPrincipals env term pt accessToken cfg = some ([], none))
    ∧ (∀ b re, env.transport accessToken
          (URLEncoded (sURL ++ "/" ++ keycloakoidc.GroupType ++ "s?search=" ++ term))
            = .response 401 b re →
        searchPrincipals env term keycloakoidc.GroupType accessToken cfg = some ([], none))
    ∧ (∀ bu us bg re,
        env.transport accessToken
          (URLEncoded (sURL ++ "/" ++ keycloakoidc.UserType ++ "s?search=" ++ term))
            = .response 200 bu none →
        env.unmarshalAccounts bu = Except.ok us →
        env.transport accessToken
          (URLEncoded (sURL ++ "/" ++ keycloakoidc.GroupType ++ "s?search=" ++ term))
            = .response 401 bg re →
        searchPrincipals env term "" accessToken cfg = some ([], none)) := by
  refine ⟨?_, ?_, ?_⟩
  · rintro pt (rfl | rfl) b re ht
    · simp only [keycloakoidc.UserType, keycloakoidc.GroupType] at ht
      simp [searchPrincipals, hurl, usersLeg, getFromKeyCloak, ht,
        keycloakoidc.UserType, keycloakoidc.GroupType]
    · simp only [keycloakoidc.UserType, keycloakoidc.GroupType] at ht
      simp [searchPrincipals, hurl, usersLeg, getFromKeyCloak, ht,
        keycloakoidc.UserType, keycloakoidc.GroupType]
  · intro b re ht
    simp only [keycloakoidc.UserType, keycloakoidc.GroupType] at ht
    simp [searchPrincipals, hurl, groupsLeg, getFromKeyCloak, ht,
      keycloakoidc.UserType, keycloakoidc.GroupType]
  · intro bu us bg re htu hus htg
    simp only [keycloakoidc.UserType, keycloakoidc.GroupType] at htu htg
    simp [searchPrincipals, hurl, usersLeg, groupsLeg, getFromKeyCloak, htu, hus, htg,
      keycloakoidc.UserType, keycloakoidc.GroupType]

/-- Witness for C3: against the concrete all-401 backend `env401`, a user
search returns the empty list with nil error. -/
theorem claim_C3_search_401_empty_witness :
    getSearchURL cfgEx.issuer = some "https://host/auth/admin/realms/foo"
      ∧ searchPrincipals env401 "bob" keycloakoidc.UserType "tok" cfgEx = some ([], none) :=
  ⟨rfl, (claim_C3_search_401_empty env401 "bob" "tok" cfgEx
      "https://host/auth/admin/realms/foo" rfl).1
    keycloakoidc.UserType (Or.inr rfl) "unauthorized" none rfl⟩

/-- Claim C4 (refuted, code bug): when the token-exchange response carries
neither an `id_token` nor an `access_token` extra, `LoginUser` does stop
before verification but returns the current `err` variable, which is nil
at that point: the result is the zero principal, no groups, an empty
token and a nil error instead of a missing-token error. -/
theorem claim_C4_missing_token_nil_error :
    LoginUser envNoToken (some cfgEx) = ⟨emptyPrincipal, [], "", none⟩ :=
  rfl

/-- Claim C5: subgroup flattening with the per-level 100-entry cap.
First part: for any group bounded by 100 entries at every nesting level,
flattening returns exactly the full transitive closure of subgroups in
depth-first order (each subgroup record, hence its id, preserved).
Second part: for any group, flattening equals flattening of the group
restricted to its first 100 immediate subgroups — so for a group with
150 immediate subgroups the last 50 are dropped entirely, and by the
same equality applied inside the recursion the cap acts independently at
every level. -/
theorem claim_C5_subgroup_flattening :
    (∀ g : Group, levelsBounded g = true → getSubGroups g = allSubGroups g)
      ∧ (∀ (i : Int) (n : String) (subs : GroupList),
          getSubGroups (.mk i n subs) = getSubGroups (.mk i n (takeGL 100 subs))) :=
  ⟨getSubGroups_bounded, getSubGroups_take⟩

/-- Witness for C5: the concrete two-level group `gEx` is bounded and its
capped flattening equals the full closure. -/
theorem claim_C5_subgroup_flattening_witness :
    levelsBounded gEx = true ∧ getSubGroups gEx = allSubGroups gEx :=
  ⟨rfl, claim_C5_subgroup_flattening.1 gEx rfl⟩

/-- Claim C6 counterexample: the issuer `https://host/auth/realms/foo`
derives `https://host/auth/admin/realms/foo` — `strings.SplitAfter`
keeps the `/auth/` marker in the first part — not the
`https://host/admin/realms/foo` the claim states. -/
theorem claim_C6_counterexample :
    getSearchURL "https://host/auth/realms/foo"
        = some "https://host/auth/admin/realms/foo"
      ∧ ("https://host/auth/admin/realms/foo" : String)
          ≠ "https://host/admin/realms/foo" :=
  ⟨rfl, by decide⟩

/-- Claim C6 (amended): the admin search base URL keeps the issuer prefix
up to and including the `/auth/` marker and inserts `admin/` right after
it: whenever `SplitAfter` yields exactly two parts the result is
the prefix ending in the marker, then `admin/`, then the realm
path, and the issuer
`https://host/auth/realms/foo` derives exactly
`https://host/auth/admin/realms/foo`. -/
theorem claim_C6_search_url_amended :
    (∀ issuer p0 p1 : String, goSplitAfter issuer "/auth/" = [p0, p1] →
      getSearchURL issuer = some (p0 ++ "admin/" ++ p1))
      ∧ getSearchURL "https://host/auth/realms/foo"
          = some "https://host/auth/admin/realms/foo" := by
  constructor
  · intro issuer p0 p1 h
    simp [getSearchURL, h]
  · rfl

/-- Witness for C6: the split of the example issuer has exactly the two
parts `https://host/auth/` and `realms/foo`, and the amended theorem
yields the derived URL. -/
theorem claim_C6_search_url_amended_witness :
    goSplitAfter "https://host/auth/realms/foo" "/auth/"
        = ["https://host/auth/", "realms/foo"]
      ∧ getSearchURL "https://host/auth/realms/foo"
          = some ("https://host/auth/" ++ "admin/" ++ "realms/foo") :=
  ⟨rfl, claim_C6_search_url_amended.1 "https://host/auth/realms/foo"
    "https://host/auth/" "realms/foo" rfl⟩

/-- Claim C7 (refuted, code bug): on an issuer without the `/auth/`
marker, `getSearchURL` does not return an error value — its returned
error is always nil — but evaluates `splitIssuer[1]` on a one-element
slice: an index-out-of-range runtime panic, modelled as `none`.  The
helper `getSearchURL_no_marker` proves this for every marker-free
issuer; here it is evaluated at the concrete failing input. -/
theorem claim_C7_no_marker_panics :
    getSearchURL "https://host/realms/foo" = none :=
  rfl

/-- Claim C8: principal-id round trip.  For every user principal built by
`userToPrincipal` the id parses back to `(user, subject)`, for every
group principal built by `groupToPrincipal` the id parses back to
`(group, name)`; `oidc_user://abc123` parses to `(user, abc123)` and
`garbage` is rejected with an invalid-id error. -/
theorem claim_C8_principal_id_roundtrip :
    (∀ (ui : oidc.UserInfo) (ci : claimInfo),
      parsePrincipalID (userToPrincipal ui ci).name = Except.ok (oidc.UserType, ui.subject))
      ∧ (∀ g : String,
          parsePrincipalID (groupToPrincipal g).name = Except.ok (oidc.GroupType, g))
      ∧ parsePrincipalID "oidc_user://abc123" = Except.ok (oidc.UserType, "abc123")
      ∧ parsePrincipalID "garbage" = Except.error (GoErr.ext "invalid id garbage") := by
  refine ⟨?_, ?_, rfl, rfl⟩
  · intro ui ci
    show parsePrincipalID ("oidc_user://" ++ ui.subject) = Except.ok (oidc.UserType, ui.subject)
    exact parse_user_id ui.subject
  · intro g
    show parsePrincipalID ("oidc_group://" ++ g) = Except.ok (oidc.GroupType, g)
    exact parse_group_id g

/-- Claim C9 counterexample: `_user://x` has an empty provider part in
front of the first `_`, yet parsing accepts it and returns a principal
type and external id, where the claim requires an invalid-id rejection
of any split into two parts that are not both non-empty. -/
theorem claim_C9_counterexample :
    parsePrincipalID "_user://x" = Except.ok (oidc.UserType, "x") :=
  rfl

/-- Claim C9 (amended): parsing fails closed up to emptiness of the
parts: it succeeds exactly when the split on the first `:` and the
subsequent split on the first `_` each yield two parts — which may be
empty — and the parsed kind is `user` or `group`; in every other case an
error and no principal is returned, and every returned kind is `user` or
`group`.  (The check `externalID == "" && principalType == ""` never
fires on its own: a valid kind is nonempty.) -/
theorem claim_C9_parse_fails_closed_amended (id : String) :
    ((∃ r, parsePrincipalID id = Except.ok r) ↔
      ∃ p0 p1, goSplitN2 id ":" = [p0, p1] ∧
        ∃ q0 k, goSplitN2 p0 "_" = [q0, k] ∧
          (k = oidc.UserType ∨ k = oidc.GroupType))
    ∧ (∀ k ext, parsePrincipalID id = Except.ok (k, ext) →
        k = oidc.UserType ∨ k = oidc.GroupType) := by
  rcases goSplitN2_shape id ":" with e1 | ⟨p0, p1, e1⟩
  · simp only [parsePrincipalID, e1]
    constructor
    · simp
    · simp
  · rcases goSplitN2_shape p0 "_" with e2 | ⟨q0, k, e2⟩
    · simp only [parsePrincipalID, e1, e2]
      constructor
      · constructor
        · simp
        · rintro ⟨p0', p1', hp, q0', k', hq, hk⟩
          obtain ⟨rfl, rfl⟩ : p0' = p0 ∧ p1' = p1 := by simp_all
          rw [e2] at hq
          simp at hq
      · simp
    · simp only [parsePrincipalID, e1, e2]
      by_cases hA : goTrimPfx p1 "//" = "" ∧ k = ""
      · rw [if_pos hA]
        constructor
        · constructor
          · simp
          · rintro ⟨p0', p1', hp, q0', k', hq, hk⟩
            obtain ⟨rfl, rfl⟩ : p0' = p0 ∧ p1' = p1 := by simp_all
            rw [e2] at hq
            obtain ⟨rfl, rfl⟩ : q0' = q0 ∧ k' = k := by simp_all
            rw [hA.2] at hk
            simp [oidc.UserType, oidc.GroupType] at hk
        · simp
      · rw [if_neg hA]
        by_cases hB : k ≠ oidc.UserType ∧ k ≠ oidc.GroupType
        · rw [if_pos hB]
          constructor
          · constructor
            · simp
            · rintro ⟨p0', p1', hp, q0', k', hq, hk⟩
              obtain ⟨rfl, rfl⟩ : p0' = p0 ∧ p1' = p1 := by simp_all
              rw [e2] at hq
              obtain ⟨rfl, rfl⟩ : q0' = q0 ∧ k' = k := by simp_all
              rcases hk with h | h
              · exact (hB.1 h).elim
              · exact (hB.2 h).elim
          · simp
        · rw [if_neg hB]
          push_neg at hB
          have hk : k = oidc.UserType ∨ k = oidc.GroupType := by
            by_cases hu : k = oidc.UserType
            · exact Or.inl hu
            · exact Or.inr (hB hu)
          constructor
          · constructor
            · intro _
              exact ⟨p0, p1, rfl, q0, k, e2, hk⟩
            · intro _
              exact ⟨_, rfl⟩
          · intro k0 ext0 hr
            injection hr with hr
            obtain ⟨rfl, -⟩ : k = k0 ∧ goTrimPfx p1 "//" = ext0 := by
              constructor <;> injection hr
            exact hk

/-- Witness for C9: the amended theorem applied at `oidc_user://abc123`,
whose parse succeeds, yields a kind among user and group. -/
theorem claim_C9_parse_fails_closed_amended_witness :
    parsePrincipalID "oidc_user://abc123" = Except.ok (oidc.UserType, "abc123")
      ∧ (oidc.UserType = oidc.UserType ∨ oidc.UserType = oidc.GroupType) :=
  ⟨rfl, (claim_C9_parse_fails_closed_amended "oidc_user://abc123").2
    oidc.UserType "abc123" rfl⟩

/-- Claim C10: for every well-formed user principal id
`oidc_user://x` — never equal to the bare `"user"` the code compares the
whole id against — `GetPrincipal` builds the result via
`groupToPrincipal`, so the returned principal has id `oidc_group://x`
and an empty login name, while its principal type is subsequently set to
user.  This holds for every membership oracle and caller token: even
when the me-branch overwrites the login name, a me-match forces the
token login name to equal the empty one. -/
theorem claim_C10_get_principal_user_via_group
    (mc : Token → Principal → Bool) (x : String) (tk : Token) :
    (GetPrincipal mc ("oidc_user://" ++ x) tk).map
        (fun p => (p.name, p.loginName, p.principalType))
      = Except.ok ("oidc_group://" ++ x, "", oidc.UserType) := by
  simp only [GetPrincipal, parse_user_id, if_neg (user_id_ne_usertype x)]
  simp only [toPrincipalFromToken, if_pos rfl]
  cases hme : IsThisUserMe tk.userPrincipal
      { groupToPrincipal x with principalType := oidc.UserType } with
  | false =>
    simp [hme, groupToPrincipal, oidc.Name, oidc.GroupType]
    rfl
  | true =>
    have hln : tk.userPrincipal.loginName = "" := by
      simp only [IsThisUserMe, Bool.and_eq_true, beq_iff_eq] at hme
      simpa [groupToPrincipal] using hme.1.2
    simp [hme, groupToPrincipal, oidc.Name, oidc.GroupType, hln]
    rfl
